import Mathlib

/-!
Verification of the genmod concurrent annotation pipeline.

This file gives a shallow embedding of the three source files

  * genmod/commands/annotate_variant.py   (the driver, `annotate`)
  * genmod/vcf_tools/print_variants.py    (`print_variant`, `print_variant_for_sorting`)
  * genmod/utils/print_variants.py        (`print_variants`, `print_variant_for_sorting`)

together with spec-level models of the collaborators that are not part of
the three files (the worker pool, the result collector and the external
sorter), and proves or refutes the specification claims about them.

Python string operations used by the sources are embedded first, on the
character-list representation of strings, so that the algebra of
`split`/`join`/`rstrip` can be reasoned about directly.
-/

namespace Genmod

/-! ## Python string primitives -/

/-- Python whitespace, as stripped by `str.rstrip()`. -/
def pyIsSpace (c : Char) : Bool :=
  c = ' ' || c = '\t' || c = '\n' || c = '\r' || c = '\x0b' || c = '\x0c'

/-- Character-list core of Python `str.rstrip()`: drop trailing whitespace. -/
def rstripChars (l : List Char) : List Char :=
  (l.reverse.dropWhile pyIsSpace).reverse

/-- Python `s.rstrip()`. -/
def pyRstrip (s : String) : String :=
  ⟨rstripChars s.data⟩

/-- Character-list core of Python `s.split(sep)` for a one-character
separator: `"".split(sep) == [""]`, separators are not kept. -/
def splitOnChar (sep : Char) : List Char → List (List Char)
  | [] => [[]]
  | c :: cs =>
    if c = sep then [] :: splitOnChar sep cs
    else
      match splitOnChar sep cs with
      | [] => [[c]]
      | f :: rest => (c :: f) :: rest

/-- Python `s.split(sep)` for a one-character separator. -/
def pySplit (sep : Char) (s : String) : List String :=
  (splitOnChar sep s.data).map String.mk

/-- Character-list core of Python `sep.join(parts)`. -/
def joinChar (sep : Char) : List (List Char) → List Char
  | [] => []
  | f :: rest =>
    match rest with
    | [] => f
    | g :: gs => f ++ sep :: joinChar sep (g :: gs)

/-- Python `sep.join(parts)` for a one-character separator. -/
def pyJoin (sep : Char) (parts : List String) : String :=
  ⟨joinChar sep (parts.map String.data)⟩

/-- Python `s.startswith('#')`. -/
def startsWithHash (s : String) : Bool :=
  match s.data with
  | [] => false
  | c :: _ => c = '#'

/-! ## Rank-score values

`utils.print_variant_for_sorting` initialises its rank score to the Python
int `-100` and overwrites it with `float(...)` of a score token; the value
is then rendered with `str` into the spill line.  Floating-point arithmetic
is never performed on the value — it is only parsed and re-rendered — so a
parsed score is represented by the token it was parsed from. -/

/-- A Python rank-score value: the initial int `-100`, or the result of
`float(tok)` for a token accepted by Python's `float`. -/
inductive PyNum where
  | int (n : Int)
  | float (tok : String)
  deriving DecidableEq

/-- Python `str` of a rank-score value.  `int n` renders as the decimal
integer (`str(-100) == "-100"`).  A parsed float stands for
`str(float(tok))`; no claim depends on the decimal digits of a rendered
float, only on equal scores rendering equally, so the rendering is
modelled by the token itself. -/
def renderPyNum : PyNum → String
  | .int n => toString n
  | .float tok => tok

/-- One or more ASCII digits after an optional sign: the exponent body of
a Python float literal. -/
def signedDigits (l : List Char) : Bool :=
  let body := match l with
    | c :: rest => if c = '+' || c = '-' then rest else c :: rest
    | [] => []
  !body.isEmpty && body.all Char.isDigit

/-- Optional exponent tail `[eE][+-]?digits` of a Python float literal. -/
def expTail (l : List Char) : Bool :=
  match l with
  | [] => true
  | c :: rest => (c = 'e' || c = 'E') && signedDigits rest

/-- Mantissa-plus-exponent body of a Python float literal:
`digits [. digits] [exp]` with at least one digit around the point. -/
def mantissaExp (l : List Char) : Bool :=
  let d1 := l.takeWhile Char.isDigit
  match l.dropWhile Char.isDigit with
  | '.' :: r2 =>
    (!d1.isEmpty || !(r2.takeWhile Char.isDigit).isEmpty)
      && expTail (r2.dropWhile Char.isDigit)
  | r1 => !d1.isEmpty && expTail r1

/-- Whether Python `float(s)` succeeds: optional surrounding whitespace
and sign, then a decimal literal or `inf`/`infinity`/`nan` (any case).
`float(s)` raises `ValueError` exactly when this is false. -/
def isFloatToken (s : String) : Bool :=
  let stripped := rstripChars (s.data.dropWhile pyIsSpace)
  let core := match stripped with
    | c :: rest => if c = '+' || c = '-' then rest else c :: rest
    | [] => []
  let low := core.map Char.toLower
  (low = "inf".data || low = "infinity".data || low = "nan".data)
    || mantissaExp core

/-! ## genmod/vcf_tools/print_variants.py -/

namespace vcf_tools

/-- Result of one `print_variant` call: `fileOut` is what is written to
`outfile` when a handle is supplied, `consoleOut` what is printed to
stdout otherwise. -/
structure EmitResult where
  fileOut : Option String
  consoleOut : Option String
  deriving DecidableEq

/-- genmod/vcf_tools/print_variants.py, `print_variant` (lines 23–54).
Header lines (leading `#`) are ignored; otherwise the line is rstripped
and split on tabs, `'modified'` mode drops the first (sort-key) column,
and the rejoined fields go to the outfile (with a newline) when a handle
is supplied, else to the console unless `silent`. -/
def print_variant (variant_line : String) (hasOutfile : Bool)
    (mode : String) (silent : Bool) : EmitResult :=
  if !(startsWithHash variant_line) then
    let splitted_line := pySplit '\t' (pyRstrip variant_line)
    let splitted_line :=
      if mode = "modified" then splitted_line.drop 1 else splitted_line
    if hasOutfile then
      ⟨some (pyJoin '\t' splitted_line ++ "\n"), none⟩
    else if !silent then
      ⟨none, some (pyJoin '\t' splitted_line)⟩
    else ⟨none, none⟩
  else ⟨none, none⟩

/-- genmod/vcf_tools/print_variants.py, `print_variant_for_sorting`
(lines 56–68): splits the line on tabs and writes
`"{priority}\t{rejoined fields}"` to the temporary file; the returned
string is the written bytes. -/
def print_variant_for_sorting (variant_line : String) (priority : PyNum) :
    String :=
  let fields := pySplit '\t' variant_line
  renderPyNum priority ++ "\t" ++ pyJoin '\t' fields

end vcf_tools

/-! ## genmod/utils/print_variants.py -/

namespace utils

/-- genmod/utils/print_variants.py, `print_variants` (lines 23–59): the
per-file loop applying the same per-line logic as
`vcf_tools.print_variant`.  Returns the lines appended to the outfile and
the lines printed to the console. -/
def print_variants (file_lines : List String) (hasOutfile : Bool)
    (mode : String) (silent : Bool) : List String × List String :=
  let body := (file_lines.filter (fun l => !startsWithHash l)).map (fun l =>
    let fields := pySplit '\t' (pyRstrip l)
    let fields := if mode = "modified" then fields.drop 1 else fields
    pyJoin '\t' fields)
  if hasOutfile then (body.map (fun l => l ++ "\n"), [])
  else if !silent then ([], body)
  else ([], [])

/-- The inner `for family_annotation in value.split(',')` loop of
`print_variant_for_sorting` when a family id is supplied (lines 79–85):
every entry whose first `:`-part equals the family id overwrites the rank
score with `float` of its second `:`-part; a missing second part raises
`IndexError`, an unparsable one `ValueError`. -/
def famLoop (fid : String) (fams : List String) (rank_score : PyNum) :
    Except String PyNum :=
  match fams with
  | [] => .ok rank_score
  | fam :: rest =>
    let parts := pySplit ':' fam
    if parts.headD "" = fid then
      match parts.get? 1 with
      | none => .error "IndexError"
      | some tok =>
        if isFloatToken tok then famLoop fid rest (.float tok)
        else .error "ValueError"
    else famLoop fid rest rank_score

/-- The same inner loop when no family id is supplied (lines 86–89): the
first `,`-entry's score is taken and the loop breaks immediately. -/
def firstFamScore (value : String) : Except String PyNum :=
  let parts := pySplit ':' ((pySplit ',' value).headD "")
  match parts.get? 1 with
  | none => .error "IndexError"
  | some tok =>
    if isFloatToken tok then .ok (.float tok) else .error "ValueError"

/-- The outer `for info_annotation in variant_line[7].split(';')` loop of
`print_variant_for_sorting` (lines 72–89).  `kv` carries the loop
variables `key`/`value`, which in the source survive across iterations
and are only (re)bound by entries that split on `=` into exactly two
parts; reading the still-unbound `key` raises `NameError`. -/
def rankLoop (family_id : Option String) :
    List String → Option (String × String) → PyNum → Except String PyNum
  | [], _, rank_score => .ok rank_score
  | entry :: rest, kv, rank_score =>
    let parts := pySplit '=' entry
    let kv :=
      if parts.length = 2 then some (parts.headD "", parts.getD 1 "") else kv
    match kv with
    | none => .error "NameError"
    | some (key, value) =>
      if key = "RankScore" then
        let step := match family_id with
          | some fid => famLoop fid (pySplit ',' value) rank_score
          | none => firstFamScore value
        match step with
        | .error e => .error e
        | .ok rank' => rankLoop family_id rest (some (key, value)) rank'
      else
        rankLoop family_id rest (some (key, value)) rank_score

/-- genmod/utils/print_variants.py, `print_variant_for_sorting`
(lines 61–90): computes the family-scoped rank score from field 7 and
writes `"{rank_score}\t{rejoined fields}"` to the temporary file.  The
result is the written bytes, or the Python exception the call raises
(`IndexError` on a line with fewer than 8 tab-fields; `NameError`,
`ValueError` or `IndexError` out of the extraction loop). -/
def print_variant_for_sorting (variant_line : String)
    (family_id : Option String) : Except String String :=
  let fields := pySplit '\t' variant_line
  match fields.get? 7 with
  | none => .error "IndexError"
  | some info =>
    match rankLoop family_id (pySplit ';' info) none (.int (-100)) with
    | .error e => .error e
    | .ok rank_score =>
      .ok (renderPyNum rank_score ++ "\t" ++ pyJoin '\t' fields)

end utils

/-- The family-scoped RankScore extraction rule stated on its own, as the
single SortKey-extraction strategy the spec asks for (§3 SortKey, §9 open
question): read field 7, scan its `;`-entries for a `RankScore` key, and
take the score of the given family — or of the first listed family when
none is given — defaulting to the int `-100`. -/
def extract_rank_score (family_id : Option String) (variant_line : String) :
    Except String PyNum :=
  match (pySplit '\t' variant_line).get? 7 with
  | none => .error "IndexError"
  | some info => utils.rankLoop family_id (pySplit ';' info) none (.int (-100))

/-- The line is nonempty and does not end in Python whitespace, so
`rstrip` leaves it unchanged. -/
def noTrailWs (s : String) : Bool :=
  match s.data.reverse with
  | [] => false
  | c :: _ => !pyIsSpace c

/-- The info entry (re)binds the loop variables `key`/`value` of the
extraction loop: it splits on `=` into exactly two parts. -/
def bindsKV (entry : String) : Bool :=
  (pySplit '=' entry).length = 2

/-- The key part of a binding info entry. -/
def entryKey (entry : String) : String :=
  (pySplit '=' entry).headD ""

/-- The value part of a binding info entry. -/
def entryVal (entry : String) : String :=
  (pySplit '=' entry).getD 1 ""

/-- The info entry is an effective RankScore assignment. -/
def isRankScoreEntry (entry : String) : Bool :=
  bindsKV entry && (entryKey entry = "RankScore")

/-- No `,`-family of the RankScore value names `fid` in its first
`:`-part. -/
def noFamMatch (fid value : String) : Bool :=
  (pySplit ',' value).all (fun fam => !((pySplit ':' fam).headD "" = fid))

/-! ## genmod/commands/annotate_variant.py — the driver -/

/-- The click default of the `-p` (`--processes`) option
(annotate_variant.py line 100): `min(4, cpu_count())`. -/
def default_processes (cpu_count : Nat) : Nat :=
  min 4 cpu_count

/-- Worker-count adaptation (annotate_variant.py lines 243–249):
`num_annotators = processes`, raised to `min(8, cpu_count())` when a CADD
file is configured and the current value equals the option default
`min(4, cpu_count())`. -/
def num_annotators (processes : Nat) (any_cadd_file : Bool)
    (cpu_count : Nat) : Nat :=
  if any_cadd_file && decide (processes = min 4 cpu_count) then
    min 8 cpu_count
  else processes

/-- The worker pool `annotators` built at lines 261–268: one
`VariantAnnotator` per index in `range(num_annotators)`, each started at
lines 271–273. -/
def annotators (n : Nat) : List Nat :=
  List.range n

/-- The data records the driver queues (lines 292–296): every input line
is rstripped, and queued unless it starts with `#`. -/
def records (file_lines : List String) : List String :=
  (file_lines.map pyRstrip).filter (fun l => !startsWithHash l)

/-- Everything the driver pushes onto `variant_queue`, in order
(lines 292–301): the data records, then one `None` sentinel per
annotator. -/
def queued_jobs (file_lines : List String) (n : Nat) : List (Option String) :=
  (records file_lines).map some ++ List.replicate n none

/-- The observable steps of the driver, in the order `annotate` performs
them (lines 254–324). -/
inductive Ev where
  | create_temp_file
  | start_worker (i : Nat)
  | push_job (j : Option String)
  | join_queue
  | put_result_none
  | join_printer
  | sort_spill
  | emit_headers
  | emit_body
  | remove_temp_file
  deriving DecidableEq

/-- The driver's event trace (annotate_variant.py lines 254–324): create
the temp spill file, start the workers, push all jobs and sentinels, join
the queue, signal and join the printer, then sort, emit and finally
`os.remove` the temp file.  The sort call (line 308) and the
header/body emission (lines 311–320) can raise; a raise aborts the run at
that point — the function has no try/finally, so the remaining events,
including `remove_temp_file`, do not happen. -/
def driverTrace (file_lines : List String) (n : Nat)
    (sort_fails emit_fails : Bool) : List Ev :=
  [Ev.create_temp_file]
    ++ (annotators n).map Ev.start_worker
    ++ (queued_jobs file_lines n).map Ev.push_job
    ++ [Ev.join_queue, Ev.put_result_none, Ev.join_printer]
    ++ (if sort_fails then [] else
        Ev.sort_spill ::
          (if emit_fails then [] else
            [Ev.emit_headers, Ev.emit_body, Ev.remove_temp_file]))

/-! ## Spec-level model of the missing pipeline stages

The worker pool (`genmod.annotate_variants.VariantAnnotator`), the
collector (`genmod.utils.VariantPrinter`) and the external sorter
(`genmod.vcf_tools.sort_variants`) are imported by the driver but are not
among the source files; they are modelled from the spec below. -/

/-- Modelled from the spec: the output of one `VariantAnnotator` worker
(§4.1; the class itself is not under src/).  Worker `w` dequeues exactly
the records the schedule `asgn` assigns to it (by queue position,
starting at `i`), applies the pure AnnotationFunction `f` to each, and
pushes the results in dequeue order. -/
def worker_output (f : String → String) (asgn : Nat → Nat) (w : Nat) :
    Nat → List String → List String
  | _, [] => []
  | i, r :: rs =>
    if asgn i = w then f r :: worker_output f asgn w (i + 1) rs
    else worker_output f asgn w (i + 1) rs

/-- Modelled from the spec: the collector `VariantPrinter` (§4.2; the
class is not under src/) serializes each received result as
`SortKey + TAB + record` and appends it to the spill file, one line per
result, in arrival order. -/
def spill_lines (key : String → String) (results : List String) :
    List String :=
  results.map (fun r => key r ++ "\t" ++ r)

/-- Stable insertion of a line into an already sorted list: on ties the
inserted element, which comes earlier in the input, stays first. -/
def insertLine (le : String → String → Bool) (x : String) :
    List String → List String
  | [] => [x]
  | y :: ys => if le x y then x :: y :: ys else y :: insertLine le x ys

/-- Stable insertion sort. -/
def insertionSort (le : String → String → Bool) : List String → List String
  | [] => []
  | x :: xs => insertLine le x (insertionSort le xs)

/-- Parse a nonempty all-digit string as a `Nat`, else `0`; the
coordinate component of the chromosome sort key. -/
def natOfDigits (s : String) : Nat :=
  if s.data ≠ [] && s.data.all Char.isDigit then
    s.data.foldl (fun acc c => 10 * acc + (c.toNat - '0'.toNat)) 0
  else 0

/-- Modelled from the spec: the `'chromosome'`-mode comparator of
`sort_variants` (§4.3; the function is not under src/): ascending by
(sequence name, coordinate), read from the fields after the prepended
sort-key column. -/
def chromLe (a b : String) : Bool :=
  let fa := pySplit '\t' a
  let fb := pySplit '\t' b
  let ca := fa.getD 1 ""
  let cb := fb.getD 1 ""
  if ca = cb then natOfDigits (fa.getD 2 "") ≤ natOfDigits (fb.getD 2 "")
  else ca < cb

/-- Modelled from the spec: `sort_variants` (genmod.vcf_tools, not under
src/), called by the driver at line 308 with `mode='chromosome'`: a
stable sort of the spill-file lines by the chromosome comparator.  The
claims use only that it permutes the lines. -/
def sort_variants (spill : List String) : List String :=
  insertionSort chromLe spill

/-- The final emission loop of the driver (annotate_variant.py
lines 313–320): each line of the sorted spill file is passed to
`print_variant` in `'modified'` mode; with an outfile supplied the lines
written to it form the final output body. -/
def emit_body (spill : List String) : List String :=
  spill.filterMap
    (fun l => (vcf_tools.print_variant l true "modified" false).fileOut)

/-- The pipeline tail from the collector's spill file to the emitted
output body: spill the results, sort, emit. -/
def pipeline_output (key : String → String) (results : List String) :
    List String :=
  emit_body (sort_variants (spill_lines key results))

/-! ## Algebra of the primitives and sanity evaluations -/


theorem splitOnChar_ne_nil (sep : Char) (l : List Char) :
    splitOnChar sep l ≠ [] := by
  induction l with
  | nil => simp [splitOnChar]
  | cons c cs ih =>
    simp only [splitOnChar]
    split
    · simp
    · cases h : splitOnChar sep cs with
      | nil => simp
      | cons f rest => simp

theorem joinChar_splitOnChar (sep : Char) (l : List Char) :
    joinChar sep (splitOnChar sep l) = l := by
  induction l with
  | nil => rfl
  | cons c cs ih =>
    simp only [splitOnChar]
    split
    · rename_i hc
      cases h : splitOnChar sep cs with
      | nil => exact absurd h (splitOnChar_ne_nil sep cs)
      | cons f rest =>
        rw [h] at ih
        simp only [joinChar, hc]
        rw [ih]
        simp
    · cases h : splitOnChar sep cs with
      | nil => exact absurd h (splitOnChar_ne_nil sep cs)
      | cons f rest =>
        rw [h] at ih
        cases rest with
        | nil =>
          simp only [joinChar] at ih ⊢
          rw [ih]
        | cons g gs =>
          simp only [joinChar] at ih ⊢
          rw [List.cons_append, ih]

/-- `join sep (split sep s) = s`: rejoining the fields of a line with the
separator it was split on recovers the line. -/
theorem pyJoin_pySplit (sep : Char) (s : String) :
    pyJoin sep (pySplit sep s) = s := by
  simp only [pyJoin, pySplit, List.map_map]
  have hmap : (splitOnChar sep s.data).map (String.data ∘ String.mk)
      = splitOnChar sep s.data := by
    apply List.map_id''
    intro l
    rfl
  rw [hmap, joinChar_splitOnChar]

/-- Splitting an appended string whose left part is separator-free splits
at the explicit separator. -/
theorem splitOnChar_append (sep : Char) (xs ys : List Char)
    (h : sep ∉ xs) :
    splitOnChar sep (xs ++ sep :: ys) = xs :: splitOnChar sep ys := by
  induction xs with
  | nil => simp [splitOnChar]
  | cons c cs ih =>
    have hc : c ≠ sep := fun hcs => h (hcs ▸ List.mem_cons_self c cs)
    have hcs : sep ∉ cs := fun hmem => h (List.mem_cons_of_mem c hmem)
    simp only [List.cons_append, splitOnChar, if_neg hc]
    rw [List.append_eq, ih hcs]

example :
    utils.print_variant_for_sorting "1\t100\t.\tA\tC\t.\t.\tRankScore=fam1:12.5" none
      = Except.ok "12.5\t1\t100\t.\tA\tC\t.\t.\tRankScore=fam1:12.5" := rfl

example :
    utils.print_variant_for_sorting "1\t100\t.\tA\tC\t.\t.\tAF=0.5" none
      = Except.ok "-100\t1\t100\t.\tA\tC\t.\t.\tAF=0.5" := rfl

example :
    utils.print_variant_for_sorting "1\t100\t.\tA\tC\t.\t.\tDB" none
      = Except.error "NameError" := rfl

example :
    utils.print_variant_for_sorting "1\t100" none
      = Except.error "IndexError" := rfl

example :
    utils.print_variant_for_sorting "1\t100\t.\tA\tC\t.\t.\tRankScore=fam1:abc" none
      = Except.error "ValueError" := rfl

example :
    utils.print_variant_for_sorting
      "1\t100\t.\tA\tC\t.\t.\tRankScore=f1:2.0,f2:7" (some "f2")
      = Except.ok "7\t1\t100\t.\tA\tC\t.\t.\tRankScore=f1:2.0,f2:7" := rfl

/-! ## Worker-count policy (C7) -/

/-- **C7**: the worker count defaults to `min(4, cpu_count())`, which never
exceeds the CPU count; with a CADD file configured and `processes` at the
option default it is raised to `min(8, cpu_count())`, which also never
exceeds the CPU count; in every other case it equals the `processes`
value, and whenever the count differs from `processes` (i.e. it was
raised) it is bounded by the CPU count. -/
theorem claim7_worker_count (processes cpu_count : Nat) (any_cadd_file : Bool) :
    default_processes cpu_count = min 4 cpu_count
    ∧ default_processes cpu_count ≤ cpu_count
    ∧ (any_cadd_file = true → processes = default_processes cpu_count →
        num_annotators processes any_cadd_file cpu_count = min 8 cpu_count
        ∧ min 8 cpu_count ≤ cpu_count)
    ∧ (¬(any_cadd_file = true ∧ processes = default_processes cpu_count) →
        num_annotators processes any_cadd_file cpu_count = processes)
    ∧ (num_annotators processes any_cadd_file cpu_count ≠ processes →
        num_annotators processes any_cadd_file cpu_count ≤ cpu_count) := by
  refine ⟨rfl, Nat.min_le_right 4 cpu_count, ?_, ?_, ?_⟩
  · intro hc hp
    simp [num_annotators, hc, hp, default_processes]
  · intro h
    simp only [num_annotators]
    rw [if_neg]
    simp only [Bool.and_eq_true, decide_eq_true_eq, default_processes] at h ⊢
    exact h
  · intro h
    simp only [num_annotators] at h ⊢
    by_cases hcond :
        (any_cadd_file && decide (processes = min 4 cpu_count)) = true
    · rw [if_pos hcond]
      exact Nat.min_le_right 8 cpu_count
    · rw [if_neg hcond] at h
      exact absurd rfl h

/-- Witness for C7 on a 16-CPU machine with a CADD file: the default 4 is
raised to 8, an explicit 3 is kept. -/
theorem claim7_worker_count_witness :
    num_annotators 4 true 16 = 8 ∧ num_annotators 3 true 16 = 3 := by
  constructor
  · have h := ((claim7_worker_count 4 16 true).2.2.1 rfl (by decide)).1
    simpa using h
  · exact (claim7_worker_count 3 16 true).2.2.2.1 (by decide)

/-! ## Sentinel protocol (C4) -/

theorem countP_isNone_replicate_none (n : Nat) :
    (List.replicate n (none : Option String)).countP (fun j => j.isNone) = n := by
  induction n with
  | zero => rfl
  | succ k ih => simp [List.replicate_succ, List.countP_cons, ih]

theorem dropWhile_isSome_map_some_append (xs : List String)
    (t : List (Option String)) :
    ((xs.map some ++ t).dropWhile fun j => j.isSome)
      = t.dropWhile (fun j => j.isSome) := by
  induction xs with
  | nil => rfl
  | cons x xs ih => simp [List.dropWhile_cons, ih]

/-- **C4**: after the data records, the driver queues exactly one `None`
sentinel per started worker: the number of sentinels among the queued
jobs equals the size of the started worker pool, and the suffix of the
queue after the last data record is exactly `n` sentinels. -/
theorem claim4_sentinel_count (file_lines : List String) (n : Nat) :
    (queued_jobs file_lines n).countP (fun j => j.isNone)
      = (annotators n).length
    ∧ ((queued_jobs file_lines n).dropWhile fun j => j.isSome)
      = List.replicate n none := by
  constructor
  · simp only [queued_jobs, annotators, List.countP_append, List.length_range]
    have h1 : ((records file_lines).map some).countP (fun j => j.isNone) = 0 := by
      rw [List.countP_eq_zero]
      intro a ha
      rcases List.mem_map.mp ha with ⟨r, -, rfl⟩
      simp
    rw [h1, countP_isNone_replicate_none]
    exact Nat.zero_add n
  · simp only [queued_jobs]
    rw [dropWhile_isSome_map_some_append]
    cases n with
    | zero => rfl
    | succ k => simp [List.replicate_succ, List.dropWhile_cons]

/-! ## Silent mode and output sink (C6) -/

/-- **C6**: on a variant (non-header) line, a supplied output sink is
always written regardless of `silent` (the emitted record is even
byte-identical for `silent` true and false, and nothing is echoed), while
without a sink the line is echoed to the console exactly when `silent` is
false; the same holds for the whole-file loop `utils.print_variants`. -/
theorem claim6_silent_outfile (variant_line mode : String) (silent : Bool)
    (file_lines : List String)
    (h : startsWithHash variant_line = false) :
    (vcf_tools.print_variant variant_line true mode silent).fileOut.isSome = true
    ∧ vcf_tools.print_variant variant_line true mode silent
        = vcf_tools.print_variant variant_line true mode false
    ∧ (vcf_tools.print_variant variant_line true mode silent).consoleOut = none
    ∧ (vcf_tools.print_variant variant_line false mode silent).fileOut = none
    ∧ ((vcf_tools.print_variant variant_line false mode silent).consoleOut.isSome
        = !silent)
    ∧ (utils.print_variants file_lines true mode silent).1
        = (utils.print_variants file_lines true mode false).1
    ∧ ((utils.print_variants file_lines false mode silent).2.isEmpty || !silent)
        = true := by
  cases silent <;>
    simp [vcf_tools.print_variant, utils.print_variants, h]

/-- Witness for C6 on the line `"1\t2"` with `silent = true`: the sink is
still written, the console stays quiet. -/
theorem claim6_silent_outfile_witness :
    (vcf_tools.print_variant "1\t2" true "vcf" true).fileOut.isSome = true
    ∧ ((vcf_tools.print_variant "1\t2" false "vcf" true).consoleOut.isSome
        = !true) :=
  ⟨(claim6_silent_outfile "1\t2" "vcf" true [] rfl).1,
   (claim6_silent_outfile "1\t2" "vcf" true [] rfl).2.2.2.2.1⟩

/-! ## Malformed records are not skipped (C2) -/

/-- **C2** counterexample: on the two-field line `"1\t100"` (wrong field
count) the sort-key extraction step does not skip-and-log — it raises
`IndexError` at `variant_line[7]`, which propagates out of
`print_variant_for_sorting` and aborts the run. -/
theorem claim2_cex :
    utils.print_variant_for_sorting "1\t100" none
      = Except.error "IndexError" := rfl

/-- **C2** amended: a malformed record is *not* skipped; the extraction
raises.  A line with fewer than 8 tab-fields raises `IndexError`, and a
well-formed `RankScore` entry whose first family score token does not
parse as a number raises `ValueError` (shown for the single-entry info
field with no family id requested). -/
theorem claim2_amended (variant_line v tok : String)
    (family_id : Option String) (info : String)
    (hshort : (pySplit '\t' variant_line).length ≤ 7 ∨
        ((pySplit '\t' variant_line).get? 7 = some info
          ∧ pySplit ';' info = ["RankScore=" ++ v]
          ∧ pySplit '=' ("RankScore=" ++ v) = ["RankScore", v]
          ∧ (pySplit ':' ((pySplit ',' v).headD "")).get? 1 = some tok
          ∧ isFloatToken tok = false
          ∧ family_id = none)) :
    ∃ e, utils.print_variant_for_sorting variant_line family_id
      = Except.error e := by
  rcases hshort with h | ⟨h7, hsplit, heq, htok, hfloat, hfid⟩
  · refine ⟨"IndexError", ?_⟩
    simp only [utils.print_variant_for_sorting]
    rw [List.get?_eq_none.mpr h]
  · refine ⟨"ValueError", ?_⟩
    subst hfid
    simp only [utils.print_variant_for_sorting]
    rw [h7]
    dsimp only
    rw [hsplit]
    simp only [utils.rankLoop, heq, utils.firstFamScore]
    simp at htok
    simp [htok, hfloat]

/-- Witness for C2: the 2-field line raises, and the unparsable score
token `"zz"` raises. -/
theorem claim2_amended_witness :
    (∃ e, utils.print_variant_for_sorting "a\tb" none = Except.error e)
    ∧ (∃ e, utils.print_variant_for_sorting
        "1\t2\t3\t4\t5\t6\t7\tRankScore=f1:zz" none = Except.error e) :=
  ⟨claim2_amended "a\tb" "" "" none "" (Or.inl (by decide)),
   claim2_amended "1\t2\t3\t4\t5\t6\t7\tRankScore=f1:zz" "f1:zz" "zz" none
      "RankScore=f1:zz"
      (Or.inr ⟨rfl, rfl, rfl, rfl, rfl, rfl⟩)⟩

/-! ## Temp-file lifecycle (C3) -/

/-- **C3** counterexample: on a run whose sort phase fails, the driver
creates its single temp spill file but never reaches `os.remove` — there
is no try/finally — so the file is not deleted on that execution path. -/
theorem claim3_cex :
    (driverTrace ["1\t100\t.\tA\tC"] 1 true false).count Ev.create_temp_file = 1
    ∧ Ev.remove_temp_file ∉ driverTrace ["1\t100\t.\tA\tC"] 1 true false := by
  constructor
  · rfl
  · decide

/-- **C3** amended: every run creates exactly one temp spill file, but it
is removed only on the fully successful path: `remove_temp_file` appears
in the driver trace iff neither the sort phase nor the emission phase
raised. -/
theorem claim3_amended (file_lines : List String) (n : Nat)
    (sort_fails emit_fails : Bool) :
    (driverTrace file_lines n sort_fails emit_fails).count Ev.create_temp_file = 1
    ∧ (Ev.remove_temp_file ∈ driverTrace file_lines n sort_fails emit_fails
        ↔ sort_fails = false ∧ emit_fails = false) := by
  have hw : ((annotators n).map Ev.start_worker).count Ev.create_temp_file = 0 := by
    rw [List.count_eq_zero]
    simp [annotators]
  have hj : ((queued_jobs file_lines n).map Ev.push_job).count Ev.create_temp_file
      = 0 := by
    rw [List.count_eq_zero]
    simp
  have hwm : Ev.remove_temp_file ∉ (annotators n).map Ev.start_worker := by
    simp [annotators]
  have hjm : Ev.remove_temp_file ∉ (queued_jobs file_lines n).map Ev.push_job := by
    simp
  constructor
  · cases sort_fails <;> cases emit_fails <;>
      simp [driverTrace, List.count_append, hw, hj, List.count_cons,
        List.count_nil]
  · cases sort_fails <;> cases emit_fails <;>
      simp [driverTrace, List.mem_append, hwm, hjm]

/-! ## Sort never starts before the joins (C5) -/

theorem append_eq_append_cons {α : Type} {x : α} :
    ∀ (A B pre post : List α), x ∉ A → A ++ B = pre ++ x :: post →
      ∃ mid, pre = A ++ mid ∧ B = mid ++ x :: post := by
  intro A
  induction A with
  | nil =>
    intro B pre post _ h
    exact ⟨pre, rfl, h⟩
  | cons a A ih =>
    intro B pre post hx h
    cases pre with
    | nil =>
      simp only [List.nil_append, List.cons_append, List.cons.injEq] at h
      exact absurd (h.1 ▸ List.mem_cons_self a A) hx
    | cons p pre₁ =>
      simp only [List.cons_append, List.cons.injEq] at h
      obtain ⟨rfl, h₂⟩ := h
      obtain ⟨mid, h₃, h₄⟩ :=
        ih B pre₁ post (fun hm => hx (List.mem_cons_of_mem a hm)) h₂
      exact ⟨mid, by rw [h₃, List.cons_append], h₄⟩

/-- **C5**: whenever the driver trace reaches the sort step, both the
queue join and the printer join already happened: in every decomposition
of the trace around `sort_spill`, the prefix contains `join_queue` and
`join_printer`. -/
theorem claim5_sort_after_joins (file_lines : List String) (n : Nat)
    (sort_fails emit_fails : Bool) (pre post : List Ev)
    (h : driverTrace file_lines n sort_fails emit_fails
        = pre ++ Ev.sort_spill :: post) :
    Ev.join_queue ∈ pre ∧ Ev.join_printer ∈ pre := by
  have hT : driverTrace file_lines n sort_fails emit_fails
      = (Ev.create_temp_file :: ((annotators n).map Ev.start_worker
          ++ (queued_jobs file_lines n).map Ev.push_job
          ++ [Ev.join_queue, Ev.put_result_none, Ev.join_printer]))
        ++ (if sort_fails then [] else
            Ev.sort_spill :: (if emit_fails then [] else
              [Ev.emit_headers, Ev.emit_body, Ev.remove_temp_file])) := by
    simp [driverTrace]
  rw [hT] at h
  have hx : Ev.sort_spill ∉
      Ev.create_temp_file :: ((annotators n).map Ev.start_worker
        ++ (queued_jobs file_lines n).map Ev.push_job
        ++ [Ev.join_queue, Ev.put_result_none, Ev.join_printer]) := by
    simp [annotators]
  obtain ⟨mid, hpre, -⟩ := append_eq_append_cons _ _ _ _ hx h
  subst hpre
  constructor <;> simp

/-- Witness for C5 on a one-record, one-worker run: the trace splits
around `sort_spill` with both joins in the prefix. -/
theorem claim5_sort_after_joins_witness :
    Ev.join_queue ∈ [Ev.create_temp_file, Ev.start_worker 0,
        Ev.push_job (some "1\t2"), Ev.push_job none, Ev.join_queue,
        Ev.put_result_none, Ev.join_printer]
    ∧ Ev.join_printer ∈ [Ev.create_temp_file, Ev.start_worker 0,
        Ev.push_job (some "1\t2"), Ev.push_job none, Ev.join_queue,
        Ev.put_result_none, Ev.join_printer] :=
  claim5_sort_after_joins ["1\t2"] 1 false false
    [Ev.create_temp_file, Ev.start_worker 0, Ev.push_job (some "1\t2"),
      Ev.push_job none, Ev.join_queue, Ev.put_result_none, Ev.join_printer]
    [Ev.emit_headers, Ev.emit_body, Ev.remove_temp_file] rfl

/-! ## Default sort key and family scoping (C10): counterexample -/

/-- **C10** counterexample: the 8-field line with info field `"DB"` (a
flag entry, no `=`) contains no RankScore entry, so by the claim the
helper should write `-100` in front of the record; instead the loop reads
the never-bound variable `key` and raises `NameError`. -/
theorem claim10_cex :
    utils.print_variant_for_sorting "1\t100\t.\tA\tC\t.\t.\tDB" none
      = Except.error "NameError" := rfl

/-! ## Spill-file round trip (C8) -/

/-- The serializer writes exactly `priority TAB line` (rejoining the
split fields is the identity). -/
theorem print_variant_for_sorting_eq (L : String) (p : PyNum) :
    vcf_tools.print_variant_for_sorting L p = renderPyNum p ++ "\t" ++ L := by
  show renderPyNum p ++ "\t" ++ pyJoin '\t' (pySplit '\t' L)
      = renderPyNum p ++ "\t" ++ L
  rw [pyJoin_pySplit]

/-- **C8** counterexample: for the record `"a\tb\t"` (trailing empty
field) and priority 5, the serializer does write `"5\ta\tb\t"`, but the
`'modified'`-mode emitter recovers only `["a", "b"]` — the `rstrip` in
`print_variant` also deletes the trailing empty field, so the
composition does not recover the fields of the original record. -/
theorem claim8_cex :
    vcf_tools.print_variant_for_sorting "a\tb\t" (PyNum.int 5) = "5\ta\tb\t"
    ∧ (vcf_tools.print_variant "5\ta\tb\t" true "modified" false).fileOut
        = some "a\tb\n"
    ∧ (vcf_tools.print_variant "5\ta\tb\t" true "modified" false).fileOut
        ≠ some ("a\tb\t" ++ "\n") := by
  refine ⟨rfl, rfl, ?_⟩
  decide

theorem rstripChars_append_noTrail (xs : List Char) (L : String)
    (hL : noTrailWs L = true) :
    rstripChars (xs ++ L.data) = xs ++ L.data := by
  unfold noTrailWs at hL
  unfold rstripChars
  cases hrev : L.data.reverse with
  | nil => rw [hrev] at hL; simp at hL
  | cons c t =>
    rw [hrev] at hL
    simp only [Bool.not_eq_true'] at hL
    rw [List.reverse_append, hrev, List.cons_append, List.dropWhile_cons, hL]
    simp only [Bool.false_eq_true, if_false, ← List.cons_append, ← hrev,
      ← List.reverse_append, List.reverse_reverse]

theorem pyRstrip_append_noTrail (s L : String) (hL : noTrailWs L = true) :
    pyRstrip (s ++ "\t" ++ L) = s ++ "\t" ++ L := by
  have hd : (s ++ "\t" ++ L).data = (s.data ++ ['\t']) ++ L.data := by
    simp [String.data_append]
  unfold pyRstrip
  rw [hd, rstripChars_append_noTrail _ _ hL]
  apply String.ext
  exact hd.symm

theorem pySplit_tab_append (s L : String) (ht : '\t' ∉ s.data) :
    pySplit '\t' (s ++ "\t" ++ L) = s :: pySplit '\t' L := by
  unfold pySplit
  have hd : (s ++ "\t" ++ L).data = s.data ++ '\t' :: L.data := by
    simp [String.data_append]
  rw [hd, splitOnChar_append _ _ _ ht, List.map_cons]

theorem startsWithHash_key_line (s t : String)
    (h : startsWithHash s = false) :
    startsWithHash (s ++ "\t" ++ t) = false := by
  unfold startsWithHash at h ⊢
  rw [show (s ++ "\t" ++ t).data = s.data ++ '\t' :: t.data by
    simp [String.data_append]]
  cases hs : s.data with
  | nil => rfl
  | cons c cs =>
    rw [hs] at h
    simp only [List.cons_append]
    exact h

/-- **C8** amended: the round trip holds for records that survive
`rstrip` unchanged — for every nonempty line `L` with no trailing Python
whitespace, and every priority whose rendering is tab-free and not a
header marker, the serializer writes `priority TAB L` and the
`'modified'`-mode emitter removes exactly the prepended sort-key column,
emitting `L` (its fields intact) plus a newline.  (For a record with
trailing whitespace or trailing empty fields, the emitter's `rstrip`
additionally deletes that tail, as the counterexample shows.) -/
theorem claim8_amended (L : String) (p : PyNum)
    (hL : noTrailWs L = true)
    (hp : startsWithHash (renderPyNum p) = false)
    (ht : '\t' ∉ (renderPyNum p).data) :
    vcf_tools.print_variant_for_sorting L p = renderPyNum p ++ "\t" ++ L
    ∧ (vcf_tools.print_variant (vcf_tools.print_variant_for_sorting L p)
        true "modified" false).fileOut = some (L ++ "\n") := by
  refine ⟨print_variant_for_sorting_eq L p, ?_⟩
  rw [print_variant_for_sorting_eq L p]
  unfold vcf_tools.print_variant
  rw [startsWithHash_key_line _ _ hp,
    pyRstrip_append_noTrail _ _ hL, pySplit_tab_append _ _ ht]
  simp [pyJoin_pySplit]

/-- Witness for C8 on `L = "a\tb"`, priority 5: the emitted line is the
record plus newline. -/
theorem claim8_amended_witness :
    vcf_tools.print_variant_for_sorting "a\tb" (PyNum.int 5)
      = renderPyNum (PyNum.int 5) ++ "\t" ++ "a\tb"
    ∧ (vcf_tools.print_variant
        (vcf_tools.print_variant_for_sorting "a\tb" (PyNum.int 5))
        true "modified" false).fileOut = some ("a\tb" ++ "\n") :=
  claim8_amended "a\tb" (PyNum.int 5) (by decide) (by decide) (by decide)

/-! ## The two sort-priority helpers agree (C9) -/

/-- **C9**: the two near-duplicate helpers are equivalent under the
single family-scoped extraction strategy: whenever the extraction rule
yields rank score `r` on a line, the extracting helper
(`utils.print_variant_for_sorting`) writes exactly the bytes the
priority-taking helper (`vcf_tools.print_variant_for_sorting`) writes
when handed `r` on the same line. -/
theorem claim9_helpers_agree (variant_line : String)
    (family_id : Option String) (r : PyNum)
    (h : extract_rank_score family_id variant_line = Except.ok r) :
    utils.print_variant_for_sorting variant_line family_id
      = Except.ok (vcf_tools.print_variant_for_sorting variant_line r) := by
  unfold extract_rank_score at h
  cases hg : (pySplit '\t' variant_line).get? 7 with
  | none =>
    rw [hg] at h
    have h' : (Except.error "IndexError" : Except String PyNum)
        = Except.ok r := h
    exact absurd h' (by simp)
  | some info =>
    rw [hg] at h
    have h' : utils.rankLoop family_id (pySplit ';' info) none
        (PyNum.int (-100)) = Except.ok r := h
    show (match (pySplit '\t' variant_line).get? 7 with
      | none => Except.error "IndexError"
      | some info =>
        match utils.rankLoop family_id (pySplit ';' info) none
            (PyNum.int (-100)) with
        | Except.error e => Except.error e
        | Except.ok rank_score =>
          Except.ok (renderPyNum rank_score ++ "\t"
            ++ pyJoin '\t' (pySplit '\t' variant_line)))
      = Except.ok (renderPyNum r ++ "\t"
          ++ pyJoin '\t' (pySplit '\t' variant_line))
    rw [hg]
    show (match utils.rankLoop family_id (pySplit ';' info) none
          (PyNum.int (-100)) with
      | Except.error e => Except.error e
      | Except.ok rank_score =>
        Except.ok (renderPyNum rank_score ++ "\t"
          ++ pyJoin '\t' (pySplit '\t' variant_line)))
      = Except.ok (renderPyNum r ++ "\t"
          ++ pyJoin '\t' (pySplit '\t' variant_line))
    rw [h']

/-- Witness for C9 on a well-formed line: extraction yields 12.5 and the
two helpers write identical bytes. -/
theorem claim9_helpers_agree_witness :
    utils.print_variant_for_sorting
        "1\t100\t.\tA\tC\t.\t.\tRankScore=fam1:12.5" none
      = Except.ok (vcf_tools.print_variant_for_sorting
          "1\t100\t.\tA\tC\t.\t.\tRankScore=fam1:12.5"
          (PyNum.float "12.5")) :=
  claim9_helpers_agree "1\t100\t.\tA\tC\t.\t.\tRankScore=fam1:12.5" none
    (PyNum.float "12.5") rfl

/-! ## Default sort key and family scoping (C10): amended -/

theorem pySplit_ne_nil (sep : Char) (s : String) : pySplit sep s ≠ [] := by
  unfold pySplit
  intro h
  exact splitOnChar_ne_nil sep s.data (List.map_eq_nil_iff.mp h)

theorem isRankScoreEntry_spec (e : String) (h : isRankScoreEntry e = true) :
    bindsKV e = true ∧ entryKey e = "RankScore" := by
  unfold isRankScoreEntry at h
  simp only [Bool.and_eq_true, decide_eq_true_eq] at h
  exact h

theorem entryKey_ne_of_not_rs (e : String) (hb : bindsKV e = true)
    (h : isRankScoreEntry e = false) : ¬(entryKey e = "RankScore") := by
  unfold isRankScoreEntry at h
  rw [hb] at h
  simpa using h

theorem noFamMatch_spec (f value : String) (h : noFamMatch f value = true) :
    ∀ fam ∈ pySplit ',' value, ¬((pySplit ':' fam).headD "" = f) := by
  intro fam hm
  have hall := (List.all_eq_true.mp h) fam hm
  simpa using hall

/-- No family entry matches, so the inner loop leaves the rank score
untouched and raises nothing. -/
theorem famLoop_noMatch (f : String) :
    ∀ (fams : List String) (rank : PyNum),
      (∀ fam ∈ fams, ¬((pySplit ':' fam).headD "" = f)) →
      utils.famLoop f fams rank = Except.ok rank := by
  intro fams
  induction fams with
  | nil => intro rank _; rfl
  | cons fam rest ih =>
    intro rank h
    simp only [utils.famLoop]
    rw [if_neg (h fam (List.mem_cons_self _ _))]
    exact ih rank (fun x hx => h x (List.mem_cons_of_mem _ hx))

/-- One unfolding step of the extraction loop, exactly as compiled from
the source. -/
theorem rankLoop_cons (family_id : Option String) (entry : String)
    (rest : List String) (kv : Option (String × String)) (rank : PyNum) :
    utils.rankLoop family_id (entry :: rest) kv rank
      = (let parts := pySplit '=' entry
         let kv₁ := if parts.length = 2
            then some (parts.headD "", parts.getD 1 "") else kv
         match kv₁ with
         | none => Except.error "NameError"
         | some (key, value) =>
           if key = "RankScore" then
             let step := match family_id with
               | some fid => utils.famLoop fid (pySplit ',' value) rank
               | none => utils.firstFamScore value
             match step with
             | Except.error e => Except.error e
             | Except.ok rank₁ =>
               utils.rankLoop family_id rest (some (key, value)) rank₁
           else utils.rankLoop family_id rest (some (key, value)) rank) := by
  rfl

/-- Step: a binding entry with a non-RankScore key just rebinds `kv`. -/
theorem rankLoop_step_rebind (family_id : Option String) (entry : String)
    (rest : List String) (kv : Option (String × String)) (rank : PyNum)
    (hb : bindsKV entry = true) (hrs : ¬(entryKey entry = "RankScore")) :
    utils.rankLoop family_id (entry :: rest) kv rank
      = utils.rankLoop family_id rest
          (some (entryKey entry, entryVal entry)) rank := by
  unfold bindsKV at hb
  unfold entryKey at hrs
  simp only [decide_eq_true_eq] at hb
  rw [rankLoop_cons]
  dsimp only
  rw [if_pos hb]
  dsimp only
  rw [if_neg hrs]
  rfl

/-- Step: a non-binding entry with a non-RankScore current key is a
no-op. -/
theorem rankLoop_step_stay (family_id : Option String) (entry : String)
    (rest : List String) (k v : String) (rank : PyNum)
    (hb : bindsKV entry = false) (hk : ¬(k = "RankScore")) :
    utils.rankLoop family_id (entry :: rest) (some (k, v)) rank
      = utils.rankLoop family_id rest (some (k, v)) rank := by
  unfold bindsKV at hb
  simp only [decide_eq_false_iff_not] at hb
  rw [rankLoop_cons]
  dsimp only
  rw [if_neg hb]
  dsimp only
  rw [if_neg hk]

/-- Step: a binding RankScore entry under a family id runs the inner
family loop on its value. -/
theorem rankLoop_step_rs_fam (f : String) (entry : String)
    (rest : List String) (kv : Option (String × String)) (rank rank₁ : PyNum)
    (hb : bindsKV entry = true) (hrs : entryKey entry = "RankScore")
    (hfam : utils.famLoop f (pySplit ',' (entryVal entry)) rank
        = Except.ok rank₁) :
    utils.rankLoop (some f) (entry :: rest) kv rank
      = utils.rankLoop (some f) rest
          (some (entryKey entry, entryVal entry)) rank₁ := by
  unfold bindsKV at hb
  unfold entryKey at hrs
  unfold entryVal at hfam
  simp only [decide_eq_true_eq] at hb
  rw [rankLoop_cons]
  dsimp only
  rw [if_pos hb]
  dsimp only
  rw [if_pos hrs]
  rw [hfam]
  rfl

/-- Step: a non-binding entry while the current key is RankScore re-runs
the inner family loop on the current value. -/
theorem rankLoop_step_stay_rs_fam (f : String) (entry : String)
    (rest : List String) (k v : String) (rank rank₁ : PyNum)
    (hb : bindsKV entry = false) (hk : k = "RankScore")
    (hfam : utils.famLoop f (pySplit ',' v) rank = Except.ok rank₁) :
    utils.rankLoop (some f) (entry :: rest) (some (k, v)) rank
      = utils.rankLoop (some f) rest (some (k, v)) rank₁ := by
  unfold bindsKV at hb
  simp only [decide_eq_false_iff_not] at hb
  rw [rankLoop_cons]
  dsimp only
  rw [if_neg hb]
  dsimp only
  rw [if_pos hk]
  rw [hfam]

/-- Step: a binding RankScore entry with no family id takes the first
family's score of its value. -/
theorem rankLoop_step_rs_first (entry : String)
    (rest : List String) (kv : Option (String × String)) (rank rank₁ : PyNum)
    (hb : bindsKV entry = true) (hrs : entryKey entry = "RankScore")
    (hfs : utils.firstFamScore (entryVal entry) = Except.ok rank₁) :
    utils.rankLoop none (entry :: rest) kv rank
      = utils.rankLoop none rest
          (some (entryKey entry, entryVal entry)) rank₁ := by
  unfold bindsKV at hb
  unfold entryKey at hrs
  unfold entryVal at hfs
  simp only [decide_eq_true_eq] at hb
  rw [rankLoop_cons]
  dsimp only
  rw [if_pos hb]
  dsimp only
  rw [if_pos hrs]
  rw [hfs]
  rfl

/-- Step: a non-binding entry while the current key is RankScore and no
family id re-takes the first family's score of the current value. -/
theorem rankLoop_step_stay_rs_first (entry : String)
    (rest : List String) (k v : String) (rank rank₁ : PyNum)
    (hb : bindsKV entry = false) (hk : k = "RankScore")
    (hfs : utils.firstFamScore v = Except.ok rank₁) :
    utils.rankLoop none (entry :: rest) (some (k, v)) rank
      = utils.rankLoop none rest (some (k, v)) rank₁ := by
  unfold bindsKV at hb
  simp only [decide_eq_false_iff_not] at hb
  rw [rankLoop_cons]
  dsimp only
  rw [if_neg hb]
  dsimp only
  rw [if_pos hk]
  rw [hfs]

/-- Over a run of entries with no effective RankScore assignment the loop
neither changes the rank score nor raises, and its key stays
non-RankScore. -/
theorem rankLoop_skip (family_id : Option String) :
    ∀ (pre rest : List String) (k v : String) (rank : PyNum),
      ¬(k = "RankScore") →
      (∀ e ∈ pre, isRankScoreEntry e = false) →
      ∃ k₁ v₁, ¬(k₁ = "RankScore")
        ∧ utils.rankLoop family_id (pre ++ rest) (some (k, v)) rank
          = utils.rankLoop family_id rest (some (k₁, v₁)) rank := by
  intro pre
  induction pre with
  | nil =>
    intro rest k v rank hk _
    exact ⟨k, v, hk, rfl⟩
  | cons e es ih =>
    intro rest k v rank hk hnon
    have he : isRankScoreEntry e = false := hnon e (List.mem_cons_self _ _)
    have hes : ∀ x ∈ es, isRankScoreEntry x = false :=
      fun x hx => hnon x (List.mem_cons_of_mem _ hx)
    by_cases hb : bindsKV e = true
    · have hrs := entryKey_ne_of_not_rs e hb he
      obtain ⟨k₁, v₁, hk₁, heq⟩ := ih rest (entryKey e) (entryVal e) rank hrs hes
      refine ⟨k₁, v₁, hk₁, ?_⟩
      rw [List.cons_append, rankLoop_step_rebind family_id e _ _ rank hb hrs, heq]
    · have hb' : bindsKV e = false := by
        cases hbe : bindsKV e
        · rfl
        · exact absurd hbe hb
      obtain ⟨k₁, v₁, hk₁, heq⟩ := ih rest k v rank hk hes
      refine ⟨k₁, v₁, hk₁, ?_⟩
      rw [List.cons_append, rankLoop_step_stay family_id e _ k v rank hb' hk, heq]

/-- Under a family id that never matches, the loop returns its incoming
rank score for any run of entries whose RankScore values never match. -/
theorem rankLoop_noMatchAll (f : String) :
    ∀ (entries : List String) (k v : String) (rank : PyNum),
      (k = "RankScore" → noFamMatch f v = true) →
      (∀ e ∈ entries, isRankScoreEntry e = true →
        noFamMatch f (entryVal e) = true) →
      utils.rankLoop (some f) entries (some (k, v)) rank = Except.ok rank := by
  intro entries
  induction entries with
  | nil => intro k v rank _ _; rfl
  | cons e es ih =>
    intro k v rank hkv hm
    have hmtail : ∀ x ∈ es, isRankScoreEntry x = true →
        noFamMatch f (entryVal x) = true :=
      fun x hx => hm x (List.mem_cons_of_mem _ hx)
    by_cases hb : bindsKV e = true
    · by_cases hrs : entryKey e = "RankScore"
      · have hval : noFamMatch f (entryVal e) = true := by
          apply hm e (List.mem_cons_self _ _)
          unfold isRankScoreEntry
          simp [hb, hrs]
        have hfam : utils.famLoop f (pySplit ',' (entryVal e)) rank
            = Except.ok rank :=
          famLoop_noMatch f _ rank (noFamMatch_spec f _ hval)
        rw [rankLoop_step_rs_fam f e es (some (k, v)) rank rank hb hrs hfam]
        exact ih _ _ rank (fun _ => hval) hmtail
      · rw [rankLoop_step_rebind (some f) e es (some (k, v)) rank hb hrs]
        exact ih _ _ rank (fun h => absurd h hrs) hmtail
    · have hb' : bindsKV e = false := by
        cases hbe : bindsKV e
        · rfl
        · exact absurd hbe hb
      by_cases hk : k = "RankScore"
      · have hfam : utils.famLoop f (pySplit ',' v) rank = Except.ok rank :=
          famLoop_noMatch f _ rank (noFamMatch_spec f v (hkv hk))
        rw [rankLoop_step_stay_rs_fam f e es k v rank rank hb' hk hfam]
        exact ih k v rank hkv hmtail
      · rw [rankLoop_step_stay (some f) e es k v rank hb' hk]
        exact ih k v rank hkv hmtail

/-- After the RankScore entry has set the score (no family id), a tail
with no further effective RankScore assignment leaves it in place. -/
theorem rankLoop_after_first (tok : String) :
    ∀ (post : List String) (k v : String),
      (k = "RankScore" →
        utils.firstFamScore v = Except.ok (PyNum.float tok)) →
      (∀ e ∈ post, isRankScoreEntry e = false) →
      utils.rankLoop none post (some (k, v)) (PyNum.float tok)
        = Except.ok (PyNum.float tok) := by
  intro post
  induction post with
  | nil => intro k v _ _; rfl
  | cons e es ih =>
    intro k v hkv hnon
    have he : isRankScoreEntry e = false := hnon e (List.mem_cons_self _ _)
    have hes : ∀ x ∈ es, isRankScoreEntry x = false :=
      fun x hx => hnon x (List.mem_cons_of_mem _ hx)
    by_cases hb : bindsKV e = true
    · have hrs := entryKey_ne_of_not_rs e hb he
      rw [rankLoop_step_rebind none e es (some (k, v)) (PyNum.float tok) hb hrs]
      exact ih _ _ (fun h => absurd h hrs) hes
    · have hb' : bindsKV e = false := by
        cases hbe : bindsKV e
        · rfl
        · exact absurd hbe hb
      by_cases hk : k = "RankScore"
      · rw [rankLoop_step_stay_rs_first e es k v (PyNum.float tok)
          (PyNum.float tok) hb' hk (hkv hk)]
        exact ih k v hkv hes
      · rw [rankLoop_step_stay none e es k v (PyNum.float tok) hb' hk]
        exact ih k v hkv hes

/-- `print_variant_for_sorting` (utils) in terms of the extraction loop:
when field 7 exists and the loop yields `r`, the helper writes
`str(r) TAB line`. -/
theorem print_variant_for_sorting_writes (variant_line info : String)
    (family_id : Option String) (r : PyNum)
    (h7 : (pySplit '\t' variant_line).get? 7 = some info)
    (h : utils.rankLoop family_id (pySplit ';' info) none (PyNum.int (-100))
        = Except.ok r) :
    utils.print_variant_for_sorting variant_line family_id
      = Except.ok (renderPyNum r ++ "\t" ++ variant_line) := by
  show (match (pySplit '\t' variant_line).get? 7 with
    | none => Except.error "IndexError"
    | some info =>
      match utils.rankLoop family_id (pySplit ';' info) none
          (PyNum.int (-100)) with
      | Except.error e => Except.error e
      | Except.ok rank_score =>
        Except.ok (renderPyNum rank_score ++ "\t"
          ++ pyJoin '\t' (pySplit '\t' variant_line)))
    = Except.ok (renderPyNum r ++ "\t" ++ variant_line)
  rw [h7]
  show (match utils.rankLoop family_id (pySplit ';' info) none
      (PyNum.int (-100)) with
    | Except.error e => Except.error e
    | Except.ok rank_score =>
      Except.ok (renderPyNum rank_score ++ "\t"
        ++ pyJoin '\t' (pySplit '\t' variant_line)))
    = Except.ok (renderPyNum r ++ "\t" ++ variant_line)
  rw [h, pyJoin_pySplit]

/-- **C10** amended: provided the *first* info entry is a `key=value`
pair (otherwise the loop raises `NameError`, as the counterexample
shows): (a) with no effective RankScore entry the helper writes the
default sort key `-100` in front of the record, for any family id;
(b) with a family id that matches no family of any RankScore value it
also writes `-100`; (c) with no family id and exactly one effective
RankScore entry whose first listed family has a parsable score, the
first family's score is the one written. -/
theorem claim10_amended (variant_line info f rs_entry tok : String)
    (family_id : Option String) (pre post : List String)
    (h7 : (pySplit '\t' variant_line).get? 7 = some info)
    (hbind : bindsKV ((pySplit ';' info).headD "") = true) :
    ((∀ e ∈ pySplit ';' info, isRankScoreEntry e = false) →
      utils.print_variant_for_sorting variant_line family_id
        = Except.ok ("-100" ++ "\t" ++ variant_line))
    ∧ ((∀ e ∈ pySplit ';' info, isRankScoreEntry e = true →
          noFamMatch f (entryVal e) = true) →
      utils.print_variant_for_sorting variant_line (some f)
        = Except.ok ("-100" ++ "\t" ++ variant_line))
    ∧ (pySplit ';' info = pre ++ rs_entry :: post →
      (∀ e ∈ pre, isRankScoreEntry e = false) →
      (∀ e ∈ post, isRankScoreEntry e = false) →
      isRankScoreEntry rs_entry = true →
      utils.firstFamScore (entryVal rs_entry)
          = Except.ok (PyNum.float tok) →
      utils.print_variant_for_sorting variant_line none
        = Except.ok (tok ++ "\t" ++ variant_line)) := by
  refine ⟨?_, ?_, ?_⟩
  · -- (a) no RankScore entry at all
    intro hnon
    cases hE : pySplit ';' info with
    | nil => exact absurd hE (pySplit_ne_nil ';' info)
    | cons e0 rest =>
      have hb0 : bindsKV e0 = true := by rw [hE] at hbind; simpa using hbind
      have he0 : isRankScoreEntry e0 = false :=
        hnon e0 (hE ▸ List.mem_cons_self e0 rest)
      have hrs0 := entryKey_ne_of_not_rs e0 hb0 he0
      have hrest : ∀ x ∈ rest, isRankScoreEntry x = false :=
        fun x hx => hnon x (hE ▸ List.mem_cons_of_mem e0 hx)
      obtain ⟨k₁, v₁, -, heq⟩ := rankLoop_skip family_id rest []
        (entryKey e0) (entryVal e0) (PyNum.int (-100)) hrs0 hrest
      rw [List.append_nil] at heq
      apply print_variant_for_sorting_writes variant_line info family_id
        (PyNum.int (-100)) h7
      rw [hE, rankLoop_step_rebind family_id e0 rest none
        (PyNum.int (-100)) hb0 hrs0, heq]
      rfl
  · -- (b) family id matches nothing
    intro hm
    cases hE : pySplit ';' info with
    | nil => exact absurd hE (pySplit_ne_nil ';' info)
    | cons e0 rest =>
      have hb0 : bindsKV e0 = true := by rw [hE] at hbind; simpa using hbind
      have hmtail : ∀ x ∈ rest, isRankScoreEntry x = true →
          noFamMatch f (entryVal x) = true :=
        fun x hx => hm x (hE ▸ List.mem_cons_of_mem e0 hx)
      apply print_variant_for_sorting_writes variant_line info (some f)
        (PyNum.int (-100)) h7
      rw [hE]
      by_cases hrs0 : entryKey e0 = "RankScore"
      · have hval : noFamMatch f (entryVal e0) = true := by
          apply hm e0 (hE ▸ List.mem_cons_self e0 rest)
          unfold isRankScoreEntry
          simp [hb0, hrs0]
        have hfam : utils.famLoop f (pySplit ',' (entryVal e0))
            (PyNum.int (-100)) = Except.ok (PyNum.int (-100)) :=
          famLoop_noMatch f _ _ (noFamMatch_spec f _ hval)
        rw [rankLoop_step_rs_fam f e0 rest none (PyNum.int (-100))
          (PyNum.int (-100)) hb0 hrs0 hfam]
        rw [rankLoop_noMatchAll f rest _ _ _ (fun _ => hval) hmtail]
      · rw [rankLoop_step_rebind (some f) e0 rest none
          (PyNum.int (-100)) hb0 hrs0]
        rw [rankLoop_noMatchAll f rest _ _ _ (fun h => absurd h hrs0) hmtail]
  · -- (c) unique RankScore entry, first family's score taken
    intro hE hpre hpost hrse hscore
    obtain ⟨hbrs, hkrs⟩ := isRankScoreEntry_spec rs_entry hrse
    apply print_variant_for_sorting_writes variant_line info none
      (PyNum.float tok) h7
    cases hp : pre with
    | nil =>
      rw [hp] at hE
      rw [hE, List.nil_append] at *
      rw [rankLoop_step_rs_first rs_entry post none (PyNum.int (-100))
        (PyNum.float tok) hbrs hkrs hscore]
      exact rankLoop_after_first tok post _ _ (fun _ => hscore) hpost
    | cons e0 pre' =>
      rw [hp] at hE hpre
      have hb0 : bindsKV e0 = true := by
        rw [hE] at hbind
        simpa using hbind
      have he0 : isRankScoreEntry e0 = false :=
        hpre e0 (List.mem_cons_self _ _)
      have hrs0 := entryKey_ne_of_not_rs e0 hb0 he0
      have hpre' : ∀ x ∈ pre', isRankScoreEntry x = false :=
        fun x hx => hpre x (List.mem_cons_of_mem _ hx)
      obtain ⟨k₁, v₁, hk₁, heq⟩ := rankLoop_skip none pre'
        (rs_entry :: post) (entryKey e0) (entryVal e0)
        (PyNum.int (-100)) hrs0 hpre'
      rw [hE, List.cons_append,
        rankLoop_step_rebind none e0 (pre' ++ rs_entry :: post) none
          (PyNum.int (-100)) hb0 hrs0, heq,
        rankLoop_step_rs_first rs_entry post (some (k₁, v₁))
          (PyNum.int (-100)) (PyNum.float tok) hbrs hkrs hscore]
      exact rankLoop_after_first tok post _ _ (fun _ => hscore) hpost

/-- Witness for C10: (a) an info field with only `AF=0.5` gets the
default `-100`; (b) a RankScore for family `f1` requested as family `XX`
gets `-100`; (c) with no family id the first family's score `5.5` is
written. -/
theorem claim10_amended_witness :
    utils.print_variant_for_sorting "1\t2\t3\t4\t5\t6\t7\tAF=0.5" none
      = Except.ok ("-100" ++ "\t" ++ "1\t2\t3\t4\t5\t6\t7\tAF=0.5")
    ∧ utils.print_variant_for_sorting
        "1\t2\t3\t4\t5\t6\t7\tRankScore=f1:5.5" (some "XX")
      = Except.ok ("-100" ++ "\t" ++ "1\t2\t3\t4\t5\t6\t7\tRankScore=f1:5.5")
    ∧ utils.print_variant_for_sorting
        "1\t2\t3\t4\t5\t6\t7\tRankScore=f1:5.5" none
      = Except.ok ("5.5" ++ "\t" ++ "1\t2\t3\t4\t5\t6\t7\tRankScore=f1:5.5") := by
  refine ⟨?_, ?_, ?_⟩
  · exact (claim10_amended "1\t2\t3\t4\t5\t6\t7\tAF=0.5" "AF=0.5"
      "" "" "" none [] [] rfl (by decide)).1 (by decide)
  · exact (claim10_amended "1\t2\t3\t4\t5\t6\t7\tRankScore=f1:5.5"
      "RankScore=f1:5.5" "XX" "" "" none [] [] rfl (by decide)).2.1
      (by decide)
  · exact (claim10_amended "1\t2\t3\t4\t5\t6\t7\tRankScore=f1:5.5"
      "RankScore=f1:5.5" "" "RankScore=f1:5.5" "5.5" none [] [] rfl
      (by decide)).2.2 rfl (by decide) (by decide) (by decide) rfl

/-! ## Pipeline completeness (C1) -/

theorem insertLine_perm (le : String → String → Bool) (x : String) :
    ∀ l : List String, (insertLine le x l).Perm (x :: l) := by
  intro l
  induction l with
  | nil => exact List.Perm.refl _
  | cons y ys ih =>
    unfold insertLine
    by_cases h : le x y = true
    · rw [if_pos h]
    · rw [if_neg h]
      exact (ih.cons y).trans (List.Perm.swap x y ys)

theorem insertionSort_perm (le : String → String → Bool) :
    ∀ l : List String, (insertionSort le l).Perm l := by
  intro l
  induction l with
  | nil => exact List.Perm.refl _
  | cons x xs ih =>
    unfold insertionSort
    exact (insertLine_perm le x (insertionSort le xs)).trans (ih.cons x)

/-- On a non-header line the emitter always writes the rejoined fields
after the dropped sort-key column, plus a newline. -/
theorem print_variant_fileOut (l : String) (h : startsWithHash l = false) :
    (vcf_tools.print_variant l true "modified" false).fileOut
      = some (pyJoin '\t' ((pySplit '\t' (pyRstrip l)).drop 1) ++ "\n") := by
  unfold vcf_tools.print_variant
  rw [h]
  rfl

theorem emit_body_eq_map :
    ∀ spill : List String, (∀ l ∈ spill, startsWithHash l = false) →
      emit_body spill = spill.map
        (fun l => pyJoin '\t' ((pySplit '\t' (pyRstrip l)).drop 1) ++ "\n") := by
  intro spill
  induction spill with
  | nil => intro _; rfl
  | cons l ls ih =>
    intro h
    have hl := h l (List.mem_cons_self _ _)
    have hls := fun x hx => h x (List.mem_cons_of_mem l hx)
    unfold emit_body
    rw [List.filterMap_cons, print_variant_fileOut l hl]
    dsimp only
    rw [List.map_cons]
    unfold emit_body at ih
    rw [ih hls]

/-- Pulling the job at a unique worker index out of the concatenated
worker outputs. -/
theorem flatMap_cons_at_perm {α : Type} (x : α) (g : Nat → List α) :
    ∀ l : List Nat, l.Nodup → ∀ w₀, w₀ ∈ l →
      (l.flatMap (fun w => if w₀ = w then x :: g w else g w)).Perm
        (x :: l.flatMap g) := by
  intro l
  induction l with
  | nil =>
    intro _ w₀ hw
    cases hw
  | cons a l ih =>
    intro hnd w₀ hw
    rw [List.flatMap_cons, List.flatMap_cons]
    by_cases he : w₀ = a
    · subst he
      rw [if_pos rfl]
      have hnotin : w₀ ∉ l := (List.nodup_cons.mp hnd).1
      have hcongr : l.flatMap (fun w => if w₀ = w then x :: g w else g w)
          = l.flatMap g :=
        List.flatMap_congr (fun w hwl =>
          if_neg (fun he₁ => hnotin (by rw [he₁]; exact hwl)))
      rw [hcongr]
      exact List.Perm.refl _
    · rw [if_neg he]
      have hp := ih (List.nodup_cons.mp hnd).2 w₀ (List.mem_of_ne_of_mem he hw)
      exact (hp.append_left (g a)).trans List.perm_middle

/-- Modelled from the spec (§4.1, §8 order independence): for any
schedule assigning every queue position to one of the `n` workers, the
concatenated worker outputs are a permutation of the annotated records —
each record is annotated exactly once, by exactly one worker. -/
theorem workers_cover_perm (f : String → String) (asgn : Nat → Nat) (n : Nat)
    (h : ∀ j, asgn j < n) :
    ∀ (recs : List String) (i : Nat),
      ((List.range n).flatMap (fun w => worker_output f asgn w i recs)).Perm
        (recs.map f) := by
  intro recs
  induction recs with
  | nil =>
    intro i
    have hz : (List.range n).flatMap (fun w => worker_output f asgn w i [])
        = [] := by
      simp [worker_output]
    rw [hz, List.map_nil]
  | cons r rs ih =>
    intro i
    have hcongr : (List.range n).flatMap
          (fun w => worker_output f asgn w i (r :: rs))
        = (List.range n).flatMap (fun w =>
            if asgn i = w then f r :: worker_output f asgn w (i + 1) rs
            else worker_output f asgn w (i + 1) rs) :=
      List.flatMap_congr (fun w _ => rfl)
    rw [hcongr, List.map_cons]
    exact (flatMap_cons_at_perm (f r)
        (fun w => worker_output f asgn w (i + 1) rs) (List.range n)
        (List.nodup_range n) (asgn i) (List.mem_range.mpr (h i))).trans
      ((ih (i + 1)).cons (f r))

/-- **C1** (the worker pool, collector and sorter are modelled from the
spec, as they are not among the source files): for every input stream,
every worker count `n ≥ 1` and every schedule, the pipeline emits exactly
one output line per data record — the emitted body is a permutation of
the per-record emissions of the annotated records, and its length equals
the number of data records: no record is lost, none is duplicated. -/
theorem claim1_completeness (f key : String → String) (asgn : Nat → Nat)
    (file_lines : List String) (n : Nat) (results : List String)
    (_hn : 1 ≤ n)
    (hasgn : ∀ j, asgn j < n)
    (hres : results.Perm ((List.range n).flatMap
        (fun w => worker_output f asgn w 0 (records file_lines))))
    (hkey : ∀ r, startsWithHash (key r ++ "\t" ++ r) = false) :
    (pipeline_output key results).length = (records file_lines).length
    ∧ (pipeline_output key results).Perm
        ((records file_lines).map (fun r =>
          pyJoin '\t'
              ((pySplit '\t' (pyRstrip (key (f r) ++ "\t" ++ f r))).drop 1)
            ++ "\n")) := by
  have hres' : results.Perm ((records file_lines).map f) :=
    hres.trans (workers_cover_perm f asgn n hasgn (records file_lines) 0)
  have hsp : ∀ l ∈ sort_variants (spill_lines key results),
      startsWithHash l = false := by
    intro l hl
    have hl' : l ∈ spill_lines key results :=
      ((insertionSort_perm chromLe (spill_lines key results)).mem_iff).mp hl
    rcases List.mem_map.mp hl' with ⟨r, -, rfl⟩
    exact hkey r
  have hemit : pipeline_output key results
      = (sort_variants (spill_lines key results)).map
          (fun l => pyJoin '\t' ((pySplit '\t' (pyRstrip l)).drop 1) ++ "\n") :=
    emit_body_eq_map _ hsp
  have hsortp : ((sort_variants (spill_lines key results)).map
        (fun l => pyJoin '\t' ((pySplit '\t' (pyRstrip l)).drop 1) ++ "\n")).Perm
      ((spill_lines key results).map
        (fun l => pyJoin '\t' ((pySplit '\t' (pyRstrip l)).drop 1) ++ "\n")) :=
    (insertionSort_perm chromLe (spill_lines key results)).map _
  have hmm : (spill_lines key results).map
        (fun l => pyJoin '\t' ((pySplit '\t' (pyRstrip l)).drop 1) ++ "\n")
      = results.map (fun r =>
          pyJoin '\t' ((pySplit '\t' (pyRstrip (key r ++ "\t" ++ r))).drop 1)
            ++ "\n") := by
    unfold spill_lines
    rw [List.map_map]
    rfl
  have hmm₂ : ((records file_lines).map f).map (fun r =>
        pyJoin '\t' ((pySplit '\t' (pyRstrip (key r ++ "\t" ++ r))).drop 1)
          ++ "\n")
      = (records file_lines).map (fun r =>
          pyJoin '\t'
              ((pySplit '\t' (pyRstrip (key (f r) ++ "\t" ++ f r))).drop 1)
            ++ "\n") := by
    rw [List.map_map]
    rfl
  have hfinal : (pipeline_output key results).Perm
      ((records file_lines).map (fun r =>
        pyJoin '\t'
            ((pySplit '\t' (pyRstrip (key (f r) ++ "\t" ++ f r))).drop 1)
          ++ "\n")) := by
    rw [hemit]
    refine hsortp.trans ?_
    rw [hmm, ← hmm₂]
    exact hres'.map _
  refine ⟨?_, hfinal⟩
  rw [hfinal.length_eq, List.length_map]

/-- Witness for C1: three lines, one of them a header, annotated by two
workers on an alternating schedule with constant sort key `"0"`: the
emitted body has exactly two lines, one per data record. -/
theorem claim1_completeness_witness :
    (pipeline_output (fun _ => "0")
        ((List.range 2).flatMap (fun w =>
          worker_output (fun r => r ++ ";X=1") (fun j => j % 2) w 0
            (records ["#chrom\tpos", "1\t100\tA", "2\t200\tC"])))).length
      = (records ["#chrom\tpos", "1\t100\tA", "2\t200\tC"]).length :=
  (claim1_completeness (fun r => r ++ ";X=1") (fun _ => "0") (fun j => j % 2)
    ["#chrom\tpos", "1\t100\tA", "2\t200\tC"] 2 _
    (by decide) (fun j => Nat.mod_lt j (by decide)) (List.Perm.refl _)
    (fun r => rfl)).1

end Genmod
